import Mathlib

/-!
# Boundary-value-problem drivers of the plasticity applications

Shallow embedding of the two application drivers

* `applications/continuumPlasticity/simpleTension/main.cc`
* `applications/crystalPlasticity/bcc/shear/main.cc`

Conventions of the embedding.

* `double` values are exact rationals (`ℚ`); `unsigned int` values are naturals
  reduced modulo `2 ^ 32`.
* Both drivers instantiate their problem class at `dim = 3`
  (`continuumPlasticity<3>`, `crystalPlasticity<3>`), and the code itself builds
  three-coordinate points and indexes coordinate `2`, so `dim` is the constant 3.
* Mutable reference arguments and class members become explicit state passing.
* The library macro `Assert` is active only in a build with assertions enabled (debug
  mode) and expands to nothing in an optimised build; the build mode is the Boolean
  parameter `assertions` of every definition that reaches an `Assert`.
* Constants of `parameters.h` (`totalNumIncrements`, `meshRefineFactor`, `spanX`,
  `spanY`, `spanZ`, `numPts`) are parameters of the definitions using them.
-/

namespace Plasticity

/-- Spatial dimension at which both drivers instantiate their problem class. -/
abbrev dim : Nat := 3

/-- A point of space, `Point<dim>`: one rational coordinate per axis. -/
abbrev Point : Type := Fin dim → ℚ

/-- Modulus of `unsigned int` arithmetic. -/
abbrev UINT_MOD : Nat := 2 ^ 32

/-! ## Crystal plasticity, simple shear -/

namespace crystalPlasticity

/-- The method `crystalPlasticity<dim>::setBoundaryValues`.  The reference arguments
`flag` and `value` are threaded through the six consecutive `if` statements and
returned as a pair. -/
def setBoundaryValues (spanX spanY spanZ : ℚ) (node : Point) (dof : Nat)
    (flag : Bool) (value : ℚ) : Bool × ℚ :=
  -- back boundary: x=0
  let s : Bool × ℚ := (flag, value)
  let s := if node 0 = 0 then (if dof ≠ 0 then (true, 0) else s) else s
  -- front boundary: x=spanX
  let s := if node 0 = spanX then (if dof ≠ 0 then (true, 0) else s) else s
  -- left boundary: y=0
  let s := if node 1 = 0 then (if dof ≠ 0 then (true, 0) else s) else s
  -- right boundary: y=spanY
  let s := if node 1 = spanY then (if dof ≠ 0 then (true, 0) else s) else s
  -- bottom boundary: z=0
  let s := if node 2 = 0 then (true, 0) else s
  -- top boundary: z=spanZ
  let s := if node 2 = spanZ then (if dof = 0 then (true, 0.0005) else (true, 0)) else s
  s

/-- Unsigned 32-bit subtraction, as in `numPts[a]-1`. -/
def usub (a b : Nat) : Nat := (a % UINT_MOD + UINT_MOD - b % UINT_MOD) % UINT_MOD

/-- The voxel stencil computed in `main` and passed to `loadOrientations`:
`{spanX/(numPts[0]-1), spanY/(numPts[1]-1), spanZ/(numPts[2]-1)}`. -/
def stencil (spanX spanY spanZ : ℚ) (numPts : Fin 3 → Nat) : Fin 3 → ℚ :=
  ![spanX / (usub (numPts 0) 1 : ℚ), spanY / (usub (numPts 1) 1 : ℚ),
    spanZ / (usub (numPts 2) 1 : ℚ)]

end crystalPlasticity

/-! ## Finite-element library objects used by the continuum driver

The driver calls into the finite-element library (namespace `dealii`).  The objects it
touches are modelled by the data they expose to the driver: faces with a centre, a
boundary indicator and support points; a constraint object that is a list of
constraint lines; vector-valued functions of a point.
-/

namespace dealii

/-- Exceptions raised by a failed `Assert`. -/
inductive Exc where
  | ExcDimensionMismatch (size expected : Nat)
  deriving DecidableEq, Repr

/-- The library macro `Assert (cond, exc)`: in a build with assertions enabled it raises
`exc` when `cond` is false; in an optimised build it expands to nothing, whatever
`cond`. -/
def Assert (assertions : Bool) (cond : Bool) (exc : Exc) : Except Exc Unit :=
  if assertions && !cond then .error exc else .ok ()

/-- A `Vector<double>`: its size is the length of the list. -/
abbrev Vector : Type := List ℚ

/-- A degree of freedom: displacement component `comp` at the node `node`. -/
structure DoF where
  node : Nat
  comp : Nat
  deriving DecidableEq, Repr

/-- One line of a constraint object: `x[index] = Σ weight * x[dof] + inhomogeneity`. -/
structure ConstraintLine where
  index : DoF
  entries : List (DoF × ℚ)
  inhomogeneity : ℚ
  deriving DecidableEq

/-- An `IndexSet` over the degrees of freedom; `size = 0` means "not initialised". -/
structure IndexSet where
  size : Nat
  elements : List DoF
  deriving DecidableEq

/-- Whether a line for `d` may be stored under the index set: the set is not
initialised, or `d` is one of its elements. -/
def IndexSet.admits (s : IndexSet) (d : DoF) : Bool :=
  s.size == 0 || s.elements.contains d

/-- The `ConstraintMatrix`: its lines, the index set of lines it may store, and whether
it has been closed. -/
structure ConstraintMatrix where
  lines : List ConstraintLine
  local_lines : IndexSet
  sorted : Bool
  deriving DecidableEq

/-- A face of a cell: whether it lies on the boundary, its centre, its boundary
indicator (0 by default) and the finite-element support points on it, each a node
number with its location. -/
structure Face where
  at_boundary : Bool
  center : Point
  boundary_indicator : Nat
  support_points : List (Nat × Point)

/-- An active cell with its faces. -/
structure Cell where
  is_locally_owned : Bool
  faces : List Face

/-- The `DoFHandler` as seen by the driver: the active cells of the triangulation it is
attached to, and the constraint lines its hanging nodes induce (none on a mesh without
local refinement). -/
structure DoFHandler where
  cells : List Cell
  hanging_node_lines : List ConstraintLine

/-- A `Function<dim>` object: number of components and the virtual `vector_value`, which
receives the output vector by reference and returns the outcome together with the
vector as it is left. -/
structure Function where
  n_components : Nat
  vector_value : Point → Vector → Except Exc Unit × Vector

/-- The `ZeroFunction<dim>(n)`: asserts the size of the output vector and fills it with
zeros. -/
def ZeroFunction (assertions : Bool) (n : Nat) : Function where
  n_components := n
  vector_value := fun _ values =>
    match Assert assertions (values.length == n) (.ExcDimensionMismatch values.length n) with
    | .error e => (.error e, values)
    | .ok _ => (.ok (), List.replicate values.length 0)

namespace ConstraintMatrix

/-- Whether a line for `d` is present: `is_constrained`. -/
def is_constrained (cm : ConstraintMatrix) (d : DoF) : Bool :=
  cm.lines.any fun l => l.index == d

/-- Whether the object may hold a line for `d`: `can_store_line`. -/
def can_store_line (cm : ConstraintMatrix) (d : DoF) : Bool :=
  cm.local_lines.admits d

/-- Adds an empty line for `d` unless one is present: `add_line`. -/
def add_line (cm : ConstraintMatrix) (d : DoF) : ConstraintMatrix :=
  if cm.is_constrained d then cm
  else { cm with lines := cm.lines ++ [{ index := d, entries := [], inhomogeneity := 0 }] }

/-- Sets the inhomogeneity of the line of `d`: `set_inhomogeneity`. -/
def set_inhomogeneity (cm : ConstraintMatrix) (d : DoF) (v : ℚ) : ConstraintMatrix :=
  { cm with lines := cm.lines.map fun l => if l.index = d then { l with inhomogeneity := v } else l }

/-- Removes every line and marks the object as open: `clear`. -/
def clear (cm : ConstraintMatrix) : ConstraintMatrix :=
  { cm with lines := [], sorted := false }

/-- Sets the index set of storable lines and clears the object: `reinit`. -/
def reinit (cm : ConstraintMatrix) (local_constraints : IndexSet) : ConstraintMatrix :=
  clear { cm with local_lines := local_constraints }

/-- Closes the object: `close`.  Lines are looked up by index, so the model keeps them
in insertion order and records that the object is closed. -/
def close (cm : ConstraintMatrix) : ConstraintMatrix :=
  { cm with sorted := true }

/-- The line stored for `d`, if any. -/
def line (cm : ConstraintMatrix) (d : DoF) : Option ConstraintLine :=
  cm.lines.find? fun l => l.index == d

end ConstraintMatrix

namespace DoFTools

/-- The library routine `make_hanging_node_constraints`: adds the hanging-node lines of
the mesh, skipping degrees of freedom that are already constrained or not storable. -/
def make_hanging_node_constraints (dh : DoFHandler) (cm : ConstraintMatrix) :
    ConstraintMatrix :=
  dh.hanging_node_lines.foldl
    (fun c l =>
      if c.can_store_line l.index && !c.is_constrained l.index then
        { c with lines := c.lines ++ [l] }
      else c)
    cm

end DoFTools

namespace VectorTools

/-- The degrees of freedom selected by `component_mask` on the support points of one
face. -/
def face_dofs (component_mask : List Bool) (face : Face) : List (DoF × Point) :=
  face.support_points.flatMap fun np =>
    (List.range dim).filterMap fun c =>
      if component_mask.getD c false then some (({ node := np.1, comp := c } : DoF), np.2)
      else none

/-- The selected degrees of freedom on all boundary faces carrying the indicator
`boundary_component`, with the location of their support point. -/
def boundary_dofs (dh : DoFHandler) (boundary_component : Nat) (component_mask : List Bool) :
    List (DoF × Point) :=
  dh.cells.flatMap fun cell =>
    cell.faces.flatMap fun face =>
      if face.at_boundary && face.boundary_indicator == boundary_component then
        face_dofs component_mask face
      else []

/-- Evaluates `f` at `p` into a fresh zero vector with `f.n_components` entries. -/
def evaluate (f : Function) (p : Point) : Except Exc Vector :=
  match f.vector_value p (List.replicate f.n_components 0) with
  | (.ok _, v) => .ok v
  | (.error e, _) => .error e

/-- The boundary values of the selected degrees of freedom, in traversal order: for each
one the function is evaluated at its support point and the component of the degree of
freedom is taken. -/
def boundary_values (f : Function) : List (DoF × Point) → Except Exc (List (DoF × ℚ))
  | [] => .ok []
  | (d, p) :: rest =>
    match evaluate f p with
    | .error e => .error e
    | .ok v =>
      match boundary_values f rest with
      | .error e => .error e
      | .ok vs => .ok ((d, v.getD d.comp 0) :: vs)

/-- Stores one boundary value: a line is added, with the value as inhomogeneity, only
if the line is storable and the degree of freedom is not yet constrained. -/
def store (cm : ConstraintMatrix) (dv : DoF × ℚ) : ConstraintMatrix :=
  if cm.can_store_line dv.1 && !cm.is_constrained dv.1 then
    (cm.add_line dv.1).set_inhomogeneity dv.1 dv.2
  else cm

/-- The library routine `interpolate_boundary_values` writing into a constraint object:
the boundary values of `boundary_function` on the faces with indicator
`boundary_component`, restricted to `component_mask`, are computed and then stored. -/
def interpolate_boundary_values (dh : DoFHandler) (boundary_component : Nat)
    (boundary_function : Function) (constraints : ConstraintMatrix)
    (component_mask : List Bool) : Except Exc ConstraintMatrix :=
  match boundary_values boundary_function (boundary_dofs dh boundary_component component_mask) with
  | .error e => .error e
  | .ok vs => .ok (vs.foldl store constraints)

end VectorTools

namespace GridGenerator

/-- The arguments of a call of `subdivided_hyper_rectangle`: repetitions per axis and the
two corner points. -/
structure SubdividedHyperRectangle where
  repetitions : List Nat
  p1 : Point
  p2 : Point

/-- Number of cells along the axis `a`. -/
def reps (g : SubdividedHyperRectangle) (a : Fin dim) : Nat :=
  g.repetitions.getD a.val 0

/-- The coordinate along axis `a` at the (possibly half-integer) grid position `i`. -/
def coord (g : SubdividedHyperRectangle) (a : Fin dim) (i : ℚ) : ℚ :=
  g.p1 a + i * ((g.p2 a - g.p1 a) / (reps g a : ℚ))

/-- Number of the grid vertex with the integer grid position `v`. -/
def vertex_index (g : SubdividedHyperRectangle) (v : Fin dim → Nat) : Nat :=
  v 0 + (reps g 0 + 1) * (v 1 + (reps g 1 + 1) * v 2)

/-- The eight corner offsets of a cell. -/
def corners : List (Fin dim → Nat) :=
  [![0, 0, 0], ![1, 0, 0], ![0, 1, 0], ![1, 1, 0], ![0, 0, 1], ![1, 0, 1], ![0, 1, 1],
    ![1, 1, 1]]

/-- The face of the cell at grid position `idx` that is orthogonal to axis `a`, on the
lower side (`s = 0`) or the upper side (`s = 1`): it is at the boundary when the cell is
the first, respectively last, along `a`; its centre is on the grid plane along `a` and at
mid-cell along the other axes; its support points are its four vertices; its boundary
indicator is the default 0. -/
def face (g : SubdividedHyperRectangle) (idx : Fin dim → Nat) (a : Fin dim) (s : Nat) : Face where
  at_boundary := (s == 0 && idx a == 0) || (s == 1 && idx a + 1 == reps g a)
  center := fun b => if b = a then coord g b ((idx a + s : Nat) : ℚ) else coord g b ((idx b : ℚ) + 1 / 2)
  boundary_indicator := 0
  support_points :=
    (corners.filter fun o => o a == s).map fun o =>
      (vertex_index g (fun b => idx b + o b), fun b => coord g b ((idx b + o b : Nat) : ℚ))

/-- The cell at grid position `idx`, with its six faces in the order x-, x+, y-, y+, z-,
z+. -/
def cell (g : SubdividedHyperRectangle) (idx : Fin dim → Nat) : Cell where
  is_locally_owned := true
  faces := [face g idx 0 0, face g idx 0 1, face g idx 1 0, face g idx 1 1, face g idx 2 0,
    face g idx 2 1]

/-- The cells of the triangulation that `subdivided_hyper_rectangle` creates: a regular
grid of `repetitions` cells per axis between the corners `p1` and `p2`, on a single
process. -/
def subdivided_hyper_rectangle (g : SubdividedHyperRectangle) : List Cell :=
  (List.range (reps g 2)).flatMap fun k =>
    (List.range (reps g 1)).flatMap fun j =>
      (List.range (reps g 0)).map fun i => cell g ![i, j, k]

end GridGenerator

end dealii

open dealii

/-! ## Continuum plasticity, simple tension -/

/-- Conversion of a `double` to `unsigned int`: truncation towards zero; the result is
undefined (`none`) when the truncated value is not representable. -/
def double_to_unsigned (x : ℚ) : Option Nat :=
  let t : Int := if 0 ≤ x then ⌊x⌋ else ⌈x⌉
  if 0 ≤ t ∧ t < (UINT_MOD : Int) then some t.toNat else none

namespace BCFunction

/-- The member `BCFunction<dim>::vector_value`: the `Assert` on the size of `values`,
then the assignment `values[0]=0.5/totalNumIncrements`.  When the `Assert` raises, the
assignment is not reached and `values` is returned as it was.  (The assignment to
component 0 of an empty vector, reachable only with assertions off and undefined in
C++, leaves the model vector empty.) -/
def vector_value (assertions : Bool) (totalNumIncrements : Nat) (_p : Point)
    (values : Vector) : Except Exc Unit × Vector :=
  match Assert assertions (values.length == dim) (.ExcDimensionMismatch values.length dim) with
  | .error e => (.error e, values)
  | .ok _ => (.ok (), values.set 0 (0.5 / (totalNumIncrements : ℚ)))

end BCFunction

/-- The class `BCFunction<dim>`, constructed as a `Function<dim>` with `dim`
components. -/
def BCFunction (assertions : Bool) (totalNumIncrements : Nat) : Function where
  n_components := dim
  vector_value := BCFunction.vector_value assertions totalNumIncrements

/-- The members of the `continuumPlasticity<dim>` problem object that the driver
reads and writes. -/
structure continuumPlasticity where
  dofHandler : DoFHandler
  constraints : ConstraintMatrix
  locally_relevant_dofs : IndexSet
  currentIteration : Nat

/-- The centre `c` of a boundary face of a hexahedral subdivision of the box with corners
`p1`, `p2`: it lies on a bounding plane of one axis and strictly inside the extent of
the box along the other axes. -/
def IsBoxBoundaryFaceCenter (p1 p2 c : Point) : Prop :=
  ∃ a : Fin dim, (c a = p1 a ∨ c a = p2 a) ∧ ∀ b : Fin dim, b ≠ a → p1 b < c b ∧ c b < p2 b

/-- The node `node` is a support point of a boundary face carrying the indicator
`tag`. -/
def OnTaggedFace (dh : DoFHandler) (tag : Nat) (node : Nat) : Prop :=
  ∃ cell ∈ dh.cells, ∃ face ∈ cell.faces,
    face.at_boundary = true ∧ face.boundary_indicator = tag ∧
      ∃ p : Point, (node, p) ∈ face.support_points

/-- Whether the degree of freedom `d` is selected by `component_mask` on a boundary face
carrying the indicator `tag`. -/
def selected (dh : DoFHandler) (tag : Nat) (component_mask : List Bool) (d : DoF) : Bool :=
  (VectorTools.boundary_dofs dh tag component_mask).any fun t => t.1 == d

/-- The line a call of `interpolate_boundary_values` with a function of constant value
`w` contributes for `d`: none when `d` is not selected, otherwise the line without
entries whose inhomogeneity is the component of `w` for `d`. -/
def contributed (dh : DoFHandler) (tag : Nat) (component_mask : List Bool) (w : Vector)
    (d : DoF) : Option ConstraintLine :=
  if selected dh tag component_mask d then
    some { index := d, entries := [], inhomogeneity := w.getD d.comp 0 }
  else none

/-- The constant value of the function the driver prescribes on the loaded faces
(indicator 2): the value of `BCFunction` on a zero vector at iteration 0, the zero
vector at later iterations. -/
def loadedValue (totalNumIncrements currentIteration : Nat) : Vector :=
  if currentIteration = 0 then [0.5 / (totalNumIncrements : ℚ), 0, 0] else [0, 0, 0]

/-- The face stored at position `j` of the cell at position `i`. -/
def faceAt (self : continuumPlasticity) (i j : Nat) : Option Face :=
  match self.dofHandler.cells[i]? with
  | none => none
  | some cell => cell.faces[j]?

namespace continuumPlasticity

/-- The method `continuumPlasticity<dim>::mesh`: the arguments it hands to
`GridGenerator::subdivided_hyper_rectangle` (log messages and the optional picture of
the mesh are not modelled). -/
def mesh (meshRefineFactor : Nat) : Option GridGenerator.SubdividedHyperRectangle :=
  -- Define the limits of the domain (this example is in 3D)
  let x_max : ℚ := 5
  let y_max : ℚ := 1
  let z_max : ℚ := 1
  let min : Point := ![0, 0, 0]
  let max : Point := ![x_max, y_max, z_max]
  -- Define the mesh refinement
  match double_to_unsigned ((2 : ℚ) ^ meshRefineFactor) with
  | none => none
  | some n =>
    let numberOfElements : List Nat := List.replicate dim n
    let numberOfElements := numberOfElements.set 0 ((numberOfElements.getD 0 0 * 5) % UINT_MOD)
    some { repetitions := numberOfElements, p1 := min, p2 := max }

/-- The body of the face loop of `markBoundaries` for one face. -/
def markFace (face : Face) : Face :=
  if face.at_boundary then
    let face_center := face.center
    if face_center 0 = 0 then
      { face with boundary_indicator := 1 } -- back boundary
    else if face_center 0 = 5 then
      { face with boundary_indicator := 2 } -- front boundary
    else if face_center 1 = 0 then
      { face with boundary_indicator := 3 } -- left boundary
    else if face_center 2 = 0 then
      { face with boundary_indicator := 4 } -- bottom boundary
    else face
  else face

/-- The method `continuumPlasticity<dim>::markBoundaries`: the loop over the active
cells, and for each locally owned cell over its faces. -/
def markBoundaries (self : continuumPlasticity) : continuumPlasticity :=
  { self with
    dofHandler :=
      { self.dofHandler with
        cells := self.dofHandler.cells.map fun cell =>
          if cell.is_locally_owned then { cell with faces := cell.faces.map markFace }
          else cell } }

/-- The method `continuumPlasticity<dim>::applyDirichletBCs`, in a build with
(`assertions = true`) or without (`assertions = false`) the library assertions. -/
def applyDirichletBCs (assertions : Bool) (totalNumIncrements : Nat)
    (self : continuumPlasticity) :
    Except Exc continuumPlasticity :=
  let constraints := self.constraints.clear
  let constraints := constraints.reinit self.locally_relevant_dofs
  let constraints := DoFTools.make_hanging_node_constraints self.dofHandler constraints
  let mechanicsBoundary_Z1 := (List.replicate dim false).set 0 true
  let mechanicsBoundary_Z2 := (List.replicate dim false).set 0 true
  let mechanicsBoundary_Z3 := (List.replicate dim false).set 1 true
  let mechanicsBoundary_Z4 := (List.replicate dim false).set 2 true
  -- u1 applied on X1=1, applied over each increment
  let step2 :=
    if self.currentIteration = 0 then
      VectorTools.interpolate_boundary_values self.dofHandler 2
        (BCFunction assertions totalNumIncrements) constraints mechanicsBoundary_Z2
    -- Don't apply further displacement simply for a new solver iteration
    else
      VectorTools.interpolate_boundary_values self.dofHandler 2
        (ZeroFunction assertions dim) constraints mechanicsBoundary_Z2
  match step2 with
  | .error e => .error e
  | .ok constraints =>
    -- u1=0 on X1=0
    match VectorTools.interpolate_boundary_values self.dofHandler 1
        (ZeroFunction assertions dim) constraints mechanicsBoundary_Z1 with
    | .error e => .error e
    | .ok constraints =>
      -- u2=0 on X2=0
      match VectorTools.interpolate_boundary_values self.dofHandler 3
          (ZeroFunction assertions dim) constraints mechanicsBoundary_Z3 with
      | .error e => .error e
      | .ok constraints =>
        -- u3=0 on X3=0
        match VectorTools.interpolate_boundary_values self.dofHandler 4
            (ZeroFunction assertions dim) constraints mechanicsBoundary_Z4 with
        | .error e => .error e
        | .ok constraints => .ok { self with constraints := constraints.close }

end continuumPlasticity

/-- The arguments `mesh` hands to the mesh generator for `meshRefineFactor = 0`. -/
def coarse : GridGenerator.SubdividedHyperRectangle where
  repetitions := [5, 1, 1]
  p1 := ![0, 0, 0]
  p2 := ![5, 1, 1]

/-- The problem object on the coarsest mesh before `markBoundaries` has run, on a single
process: five cells, 24 nodes with three displacement components each, no hanging
nodes, an empty constraint object. -/
def coarseProblem (currentIteration : Nat) : continuumPlasticity where
  dofHandler :=
    { cells := GridGenerator.subdivided_hyper_rectangle coarse, hanging_node_lines := [] }
  constraints := { lines := [], local_lines := { size := 0, elements := [] }, sorted := false }
  locally_relevant_dofs :=
    { size := 72
      elements := (List.range 24).flatMap fun n =>
        [{ node := n, comp := 0 }, { node := n, comp := 1 }, { node := n, comp := 2 }] }
  currentIteration := currentIteration

/-! ## Theorems: crystal plasticity -/

theorem usub_one_of_pos (n : Nat) (h1 : 1 ≤ n) (h2 : n < UINT_MOD) :
    ((crystalPlasticity.usub n 1 : Nat) : ℚ) = (n : ℚ) - 1 := by
  have h : crystalPlasticity.usub n 1 = n - 1 := by
    unfold crystalPlasticity.usub UINT_MOD at *
    omega
  rw [h]
  push_cast [Nat.cast_sub h1]
  ring

/-- C8: for every axis `a` with `2 ≤ numPts[a]` (an `unsigned int`), the stencil passed to
`loadOrientations` is `span[a] / (numPts[a] - 1)` in exact arithmetic; with voxel counts
(2,2,2) and extents (1,1,1) the stencil is (1,1,1). -/
theorem C8_stencil (spanX spanY spanZ : ℚ) (numPts : Fin 3 → Nat)
    (hu : ∀ a, numPts a < UINT_MOD) :
    (∀ a : Fin 3, 2 ≤ numPts a →
      crystalPlasticity.stencil spanX spanY spanZ numPts a
        = ![spanX, spanY, spanZ] a / ((numPts a : ℚ) - 1))
    ∧ crystalPlasticity.stencil 1 1 1 ![2, 2, 2] = ![1, 1, 1] := by
  refine ⟨?_, ?_⟩
  · intro a ha
    have h := usub_one_of_pos (numPts a) (by omega) (hu a)
    fin_cases a <;> simp [crystalPlasticity.stencil] at h ⊢ <;> rw [h]
  · funext a
    fin_cases a <;> simp [crystalPlasticity.stencil, crystalPlasticity.usub, UINT_MOD]

theorem C8_stencil_witness :
    (∀ a, (![20, 20, 22] : Fin 3 → Nat) a < UINT_MOD) ∧
    crystalPlasticity.stencil 1 1 1 ![20, 20, 22] 2 = 1 / 21 := by
  have hu : ∀ a, (![20, 20, 22] : Fin 3 → Nat) a < UINT_MOD := by
    intro a; fin_cases a <;> simp [UINT_MOD]
  refine ⟨hu, ?_⟩
  have h := (C8_stencil 1 1 1 ![20, 20, 22] hu).1 2 (by simp)
  rw [h]
  norm_num

/-- C9: with a positive extent `spanZ`, for every node with z-coordinate exactly 0
(whatever x and y, whatever `flag` and `value` on entry) and every component `dof`
(in particular each of 0, 1, 2), `setBoundaryValues` returns `flag = true` and
`value = 0`. -/
theorem C9_bottom_fixes_all (spanX spanY spanZ : ℚ) (node : Point) (dof : Nat)
    (flag : Bool) (value : ℚ) (hspan : 0 < spanZ) (hz : node 2 = 0) :
    crystalPlasticity.setBoundaryValues spanX spanY spanZ node dof flag value = (true, 0) := by
  have hne : ¬ ((0 : ℚ) = spanZ) := fun h => by rw [← h] at hspan; exact lt_irrefl _ hspan
  simp only [crystalPlasticity.setBoundaryValues, hz, if_true, if_false, hne]

theorem C9_bottom_fixes_all_witness :
    (0 : ℚ) < 1 ∧ (![1, 0, 0] : Point) 2 = 0 ∧
    crystalPlasticity.setBoundaryValues 1 1 1 ![1, 0, 0] 0 false 7 = (true, 0) :=
  ⟨by norm_num, by simp,
    C9_bottom_fixes_all 1 1 1 ![1, 0, 0] 0 false 7 (by norm_num) (by simp)⟩

/-- C10: for every node whose z-coordinate equals `spanZ`, whatever x, y, `flag` and
`value` on entry, `setBoundaryValues` returns `flag = true`, with `value = 0.0005` when
`dof = 0` and `value = 0` when `dof` is 1 or 2: the top-face condition is applied last and
overrides the lateral and bottom conditions. -/
theorem C10_top_takes_precedence (spanX spanY spanZ : ℚ) (node : Point) (dof : Nat)
    (flag : Bool) (value : ℚ) (hz : node 2 = spanZ) :
    (dof = 0 →
      crystalPlasticity.setBoundaryValues spanX spanY spanZ node dof flag value
        = (true, 0.0005))
    ∧ (dof = 1 ∨ dof = 2 →
      crystalPlasticity.setBoundaryValues spanX spanY spanZ node dof flag value
        = (true, 0)) := by
  refine ⟨?_, ?_⟩
  · intro h0
    simp only [crystalPlasticity.setBoundaryValues, hz, h0, if_true]
  · intro h12
    have hne : dof ≠ 0 := by omega
    simp only [crystalPlasticity.setBoundaryValues, hz, if_true, if_neg hne]

theorem C10_top_takes_precedence_witness :
    (![0, 0, 1] : Point) 2 = 1 ∧
    crystalPlasticity.setBoundaryValues 1 1 1 ![0, 0, 1] 0 false 7 = (true, 0.0005) ∧
    crystalPlasticity.setBoundaryValues 1 1 1 ![0, 0, 1] 1 false 7 = (true, 0) :=
  ⟨by simp,
    (C10_top_takes_precedence 1 1 1 ![0, 0, 1] 0 false 7 (by simp)).1 rfl,
    (C10_top_takes_precedence 1 1 1 ![0, 0, 1] 1 false 7 (by simp)).2 (Or.inl rfl)⟩

/-! ## Theorems: continuum plasticity -/

/-- C5 (as stated) fails: in a build without the library assertions the `Assert` is
empty, and on an output vector of size 2 (not `dim`) the call does not fail and
writes component 0. -/
theorem C5_counterexample :
    ([7, 7] : Vector).length ≠ dim
    ∧ BCFunction.vector_value false 10 ![0, 0, 0] [7, 7] = (.ok (), [0.05, 7]) := by
  refine ⟨by decide, ?_⟩
  simp [BCFunction.vector_value, Assert]
  norm_num

/-- C5 (amended): in a build with the library assertions enabled,
`BCFunction::vector_value` fails if and only if the size of the output vector differs
from `dim`; the failure is the dimension-mismatch error and leaves the output vector
exactly as it was; when the size equals `dim` the call succeeds.  In a build without
assertions no check is made: on a non-empty vector of any size the call does not fail,
assigns component 0 and leaves the size and the other components as they were. -/
theorem C5_vector_value_dimension_check (totalNumIncrements : Nat) (p : Point)
    (values : Vector) :
    (((∃ e, (BCFunction.vector_value true totalNumIncrements p values).1 = .error e)
        ↔ values.length ≠ dim)
      ∧ (values.length ≠ dim →
          BCFunction.vector_value true totalNumIncrements p values
            = (.error (.ExcDimensionMismatch values.length dim), values))
      ∧ (values.length = dim →
          (BCFunction.vector_value true totalNumIncrements p values).1 = .ok ()))
    ∧ (0 < values.length →
        (BCFunction.vector_value false totalNumIncrements p values).1 = .ok ()
        ∧ (BCFunction.vector_value false totalNumIncrements p values).2.length
            = values.length
        ∧ (BCFunction.vector_value false totalNumIncrements p values).2[0]?
            = some (0.5 / (totalNumIncrements : ℚ))
        ∧ (∀ i, i ≠ 0 →
            (BCFunction.vector_value false totalNumIncrements p values).2[i]?
              = values[i]?)) := by
  refine ⟨?_, ?_⟩
  · by_cases h : values.length = dim
    · simp [BCFunction.vector_value, Assert, h]
    · simp [BCFunction.vector_value, Assert, h]
  · intro hpos
    refine ⟨?_, ?_, ?_, ?_⟩
    · simp [BCFunction.vector_value, Assert]
    · simp [BCFunction.vector_value, Assert]
    · simp [BCFunction.vector_value, Assert, List.getElem?_set, hpos]
    · intro i hi
      simp [BCFunction.vector_value, Assert, List.getElem?_set, Ne.symm hi]

theorem C5_vector_value_dimension_check_witness :
    BCFunction.vector_value true 10 ![0, 0, 0] [7, 7]
      = (.error (.ExcDimensionMismatch 2 3), [7, 7]) :=
  (C5_vector_value_dimension_check 10 ![0, 0, 0] [7, 7]).1.2.1 (by decide)

/-- C6 (as stated) fails: on the output vector `(7,7,7)` the call succeeds, in either
build, and leaves components 1 and 2 at 7, not at zero. -/
theorem C6_counterexample :
    ([7, 7, 7] : Vector).length = dim
    ∧ BCFunction.vector_value true 10 ![0, 0, 0] [7, 7, 7] = (.ok (), [0.05, 7, 7])
    ∧ (BCFunction.vector_value true 10 ![0, 0, 0] [7, 7, 7]).2[1]? ≠ some 0
    ∧ BCFunction.vector_value false 10 ![0, 0, 0] [7, 7, 7] = (.ok (), [0.05, 7, 7])
    ∧ (BCFunction.vector_value false 10 ![0, 0, 0] [7, 7, 7]).2[1]? ≠ some 0 := by
  refine ⟨rfl, ?_, ?_, ?_, ?_⟩
  · simp [BCFunction.vector_value, Assert]; norm_num
  · simp [BCFunction.vector_value, Assert]
  · simp [BCFunction.vector_value, Assert]; norm_num
  · simp [BCFunction.vector_value, Assert]

/-- C6 (amended): for every point and every output vector of size `dim`, in either
build, the call succeeds, the size is unchanged, component 0 equals
`0.5/totalNumIncrements`, and every other component keeps the value it had on entry (so
it is zero when it was zero on entry, as for the zero vector the library passes in). -/
theorem C6_vector_value_writes_component_zero_only (assertions : Bool)
    (totalNumIncrements : Nat) (p : Point) (values : Vector)
    (hsize : values.length = dim) :
    (BCFunction.vector_value assertions totalNumIncrements p values).1 = .ok ()
    ∧ (BCFunction.vector_value assertions totalNumIncrements p values).2.length = dim
    ∧ (BCFunction.vector_value assertions totalNumIncrements p values).2[0]?
        = some (0.5 / (totalNumIncrements : ℚ))
    ∧ (∀ i, i ≠ 0 →
        (BCFunction.vector_value assertions totalNumIncrements p values).2[i]? = values[i]?)
    ∧ (BCFunction.vector_value assertions totalNumIncrements p (List.replicate dim 0)).2
        = [0.5 / (totalNumIncrements : ℚ), 0, 0] := by
  have hpos : 0 < values.length := by rw [hsize]; decide
  refine ⟨?_, ?_, ?_, ?_, ?_⟩
  · simp [BCFunction.vector_value, Assert, hsize]
  · simp [BCFunction.vector_value, Assert, hsize]
  · simp [BCFunction.vector_value, Assert, hsize, List.getElem?_set, hpos]
  · intro i hi
    simp [BCFunction.vector_value, Assert, hsize, List.getElem?_set, Ne.symm hi]
  · simp [BCFunction.vector_value, Assert, List.replicate]

theorem C6_vector_value_writes_component_zero_only_witness :
    (BCFunction.vector_value true 10 ![0, 0, 0] [7, 8, 9]).2[0]?
        = some (0.5 / ((10 : Nat) : ℚ))
    ∧ (BCFunction.vector_value true 10 ![0, 0, 0] [7, 8, 9]).2[2]? = some 9 :=
  ⟨(C6_vector_value_writes_component_zero_only true 10 ![0, 0, 0] [7, 8, 9] rfl).2.2.1,
    (C6_vector_value_writes_component_zero_only true 10 ![0, 0, 0] [7, 8, 9] rfl).2.2.2.1 2
      (by decide)⟩

theorem double_to_unsigned_natCast (n : Nat) (h : n < UINT_MOD) :
    double_to_unsigned (n : ℚ) = some n := by
  have h0 : (0 : ℚ) ≤ (n : ℚ) := Nat.cast_nonneg n
  have h1 : ((n : Int)) < (UINT_MOD : Int) := by exact_mod_cast h
  simp only [double_to_unsigned, h0, if_true, Int.floor_natCast]
  rw [if_pos ⟨Int.natCast_nonneg n, h1⟩]
  simp

/-- C3: for every refinement factor `r` with `5 * 2 ^ r` representable as an unsigned
32-bit integer, `mesh` hands the element counts `(5 * 2 ^ r, 2 ^ r, 2 ^ r)` to the mesh
generator together with the corners `(0,0,0)` and `(5,1,1)`; for `r = 0` the counts are
`(5,1,1)`. -/
theorem C3_mesh_element_counts (r : Nat) (hfit : 5 * 2 ^ r < UINT_MOD) :
    (continuumPlasticity.mesh r).map (fun g => g.repetitions)
        = some [5 * 2 ^ r, 2 ^ r, 2 ^ r]
    ∧ (continuumPlasticity.mesh r).map (fun g => (g.p1, g.p2))
        = some (![0, 0, 0], ![5, 1, 1])
    ∧ (continuumPlasticity.mesh 0).map (fun g => g.repetitions) = some [5, 1, 1] := by
  have key : ∀ k : Nat, 5 * 2 ^ k < UINT_MOD →
      continuumPlasticity.mesh k
        = some { repetitions := [5 * 2 ^ k, 2 ^ k, 2 ^ k], p1 := ![0, 0, 0], p2 := ![5, 1, 1] } := by
    intro k hk
    have hlt : 2 ^ k < UINT_MOD := by omega
    have hcast : ((2 : ℚ) ^ k) = ((2 ^ k : Nat) : ℚ) := by push_cast; rfl
    have hmod : (2 ^ k * 5) % UINT_MOD = 5 * 2 ^ k := by
      rw [Nat.mul_comm]; exact Nat.mod_eq_of_lt hk
    simp only [continuumPlasticity.mesh, hcast, double_to_unsigned_natCast _ hlt]
    simp [List.replicate, hmod]
  refine ⟨?_, ?_, ?_⟩
  · rw [key r hfit]; rfl
  · rw [key r hfit]; rfl
  · rw [key 0 (by decide)]; rfl

theorem C3_mesh_element_counts_witness :
    5 * 2 ^ 3 < UINT_MOD
    ∧ (continuumPlasticity.mesh 3).map (fun g => g.repetitions) = some [40, 8, 8] :=
  ⟨by decide, (C3_mesh_element_counts 3 (by decide)).1⟩


/-! ### Lookup of constraint lines -/

theorem line_eq_none_iff (cm : ConstraintMatrix) (d : DoF) :
    cm.line d = none ↔ cm.is_constrained d = false := by
  simp [ConstraintMatrix.line, ConstraintMatrix.is_constrained, List.find?_eq_none]

theorem store_eq (cm : ConstraintMatrix) (dv : DoF × ℚ) :
    VectorTools.store cm dv =
      if cm.can_store_line dv.1 = true ∧ cm.is_constrained dv.1 = false then
        { cm with lines := cm.lines ++ [{ index := dv.1, entries := [], inhomogeneity := dv.2 }] }
      else cm := by
  unfold VectorTools.store
  by_cases h1 : cm.can_store_line dv.1 = true
  · by_cases h2 : cm.is_constrained dv.1 = true
    · simp [h1, h2]
    · have h2f : cm.is_constrained dv.1 = false := by simpa using h2
      have hold : ∀ l ∈ cm.lines, ¬ l.index = dv.1 := by
        have := h2f
        simp only [ConstraintMatrix.is_constrained, List.any_eq_false] at this
        intro l hl hidx
        exact this l hl (by simp [hidx])
      have hmap : cm.lines.map (fun l => if l.index = dv.1 then { l with inhomogeneity := dv.2 } else l)
          = cm.lines := by
        conv_rhs => rw [← List.map_id cm.lines]
        apply List.map_congr_left
        intro l hl
        simp [hold l hl]
      simp [h1, h2f, ConstraintMatrix.add_line, ConstraintMatrix.set_inhomogeneity, hmap]
  · simp [h1]

theorem store_local_lines (cm : ConstraintMatrix) (dv : DoF × ℚ) :
    (VectorTools.store cm dv).local_lines = cm.local_lines := by
  rw [store_eq]; split <;> rfl

theorem store_sorted (cm : ConstraintMatrix) (dv : DoF × ℚ) :
    (VectorTools.store cm dv).sorted = cm.sorted := by
  rw [store_eq]; split <;> rfl

theorem store_line (cm : ConstraintMatrix) (dv : DoF × ℚ) (d : DoF) :
    (VectorTools.store cm dv).line d =
      (cm.line d).or
        (if cm.can_store_line d = true ∧ dv.1 = d then
          some { index := d, entries := [], inhomogeneity := dv.2 } else none) := by
  rw [store_eq]
  by_cases hd : dv.1 = d
  · subst hd
    by_cases h1 : cm.can_store_line dv.1 = true
    · by_cases h2 : cm.is_constrained dv.1 = false
      · have hn := (line_eq_none_iff cm dv.1).2 h2
        simp only [h1, h2, and_self, if_true]
        simp only [ConstraintMatrix.line] at hn ⊢
        rw [List.find?_append, hn]
        simp
      · have hs : cm.line dv.1 ≠ none := fun hn => h2 ((line_eq_none_iff cm dv.1).1 hn)
        obtain ⟨l, hl⟩ := Option.ne_none_iff_exists'.1 hs
        simp [h2, hl]
    · simp [h1]
  · by_cases h : cm.can_store_line dv.1 = true ∧ cm.is_constrained dv.1 = false
    · simp only [h, and_self, if_true, hd, and_false, if_false, Option.or_none]
      simp only [ConstraintMatrix.line]
      rw [List.find?_append]
      simp [hd]
    · simp [h, hd]

theorem foldl_store_local_lines (vs : List (DoF × ℚ)) (cm : ConstraintMatrix) :
    (vs.foldl VectorTools.store cm).local_lines = cm.local_lines := by
  induction vs generalizing cm with
  | nil => rfl
  | cons v vs ih => rw [List.foldl_cons, ih, store_local_lines]

theorem foldl_store_sorted (vs : List (DoF × ℚ)) (cm : ConstraintMatrix) :
    (vs.foldl VectorTools.store cm).sorted = cm.sorted := by
  induction vs generalizing cm with
  | nil => rfl
  | cons v vs ih => rw [List.foldl_cons, ih, store_sorted]

theorem foldl_store_line (vs : List (DoF × ℚ)) (cm : ConstraintMatrix) (d : DoF) :
    (vs.foldl VectorTools.store cm).line d =
      (cm.line d).or
        (if cm.can_store_line d = true then
          (vs.find? fun t => t.1 == d).map
            fun t => { index := d, entries := [], inhomogeneity := t.2 }
        else none) := by
  induction vs generalizing cm with
  | nil => simp
  | cons v vs ih =>
    rw [List.foldl_cons, ih, store_line]
    have hcs : (VectorTools.store cm v).can_store_line d = cm.can_store_line d := by
      simp [ConstraintMatrix.can_store_line, store_local_lines]
    rw [hcs]
    by_cases h1 : cm.can_store_line d = true
    · by_cases hv : v.1 = d
      · cases hl : cm.line d <;> simp [h1, hv, List.find?_cons]
      · cases hl : cm.line d <;> simp [h1, hv, List.find?_cons]
    · cases hl : cm.line d <;> simp [h1]

/-! ### Boundary values of the two functions the driver uses -/

theorem evaluate_BCFunction (assertions : Bool) (totalNumIncrements : Nat) (p : Point) :
    VectorTools.evaluate (BCFunction assertions totalNumIncrements) p
      = .ok [0.5 / (totalNumIncrements : ℚ), 0, 0] := by
  simp [VectorTools.evaluate, BCFunction, BCFunction.vector_value, Assert, List.replicate]

theorem evaluate_ZeroFunction (assertions : Bool) (p : Point) :
    VectorTools.evaluate (ZeroFunction assertions dim) p = .ok [0, 0, 0] := by
  simp [VectorTools.evaluate, ZeroFunction, Assert, List.replicate]

theorem boundary_values_const (f : Function) (w : Vector)
    (hf : ∀ p, VectorTools.evaluate f p = .ok w) (ts : List (DoF × Point)) :
    VectorTools.boundary_values f ts = .ok (ts.map fun t => (t.1, w.getD t.1.comp 0)) := by
  induction ts with
  | nil => rfl
  | cons t ts ih =>
    obtain ⟨d, p⟩ := t
    simp [VectorTools.boundary_values, hf, ih]

theorem interpolate_const (dh : DoFHandler) (tag : Nat) (f : Function) (w : Vector)
    (hf : ∀ p, VectorTools.evaluate f p = .ok w) (cm : ConstraintMatrix)
    (mask : List Bool) :
    ∃ cm', VectorTools.interpolate_boundary_values dh tag f cm mask = .ok cm'
      ∧ cm'.local_lines = cm.local_lines
      ∧ cm'.sorted = cm.sorted
      ∧ ∀ d, cm'.line d =
          (cm.line d).or (if cm.can_store_line d = true then contributed dh tag mask w d
            else none) := by
  refine ⟨((VectorTools.boundary_dofs dh tag mask).map
      fun t => (t.1, w.getD t.1.comp 0)).foldl VectorTools.store cm, ?_,
    foldl_store_local_lines _ cm, foldl_store_sorted _ cm, ?_⟩
  · simp only [VectorTools.interpolate_boundary_values, boundary_values_const f w hf]
  · intro d
    rw [foldl_store_line, List.find?_map]
    congr 1
    by_cases hc : cm.can_store_line d = true
    · simp only [hc, if_true, contributed, selected]
      cases hfind : List.find? ((fun t : DoF × ℚ => t.1 == d) ∘ fun t : DoF × Point =>
          (t.1, w.getD t.1.comp 0)) (VectorTools.boundary_dofs dh tag mask) with
      | none =>
        have hany : (VectorTools.boundary_dofs dh tag mask).any (fun t => t.1 == d) = false := by
          rw [List.any_eq_false]
          intro x hx
          exact (List.find?_eq_none.1 hfind) x hx
        simp [hany]
      | some t =>
        have hmem := List.mem_of_find?_eq_some hfind
        have hpt := List.find?_some hfind
        have htd : t.1 = d := by simpa using hpt
        have hany : (VectorTools.boundary_dofs dh tag mask).any (fun t => t.1 == d) = true := by
          rw [List.any_eq_true]
          exact ⟨t, hmem, by simp [htd]⟩
        simp [hany, htd]
    · simp [hc]

theorem selected_iff (dh : DoFHandler) (tag : Nat) (mask : List Bool) (d : DoF) :
    selected dh tag mask d = true ↔
      OnTaggedFace dh tag d.node ∧ d.comp < dim ∧ mask.getD d.comp false = true := by
  simp only [selected, List.any_eq_true, VectorTools.boundary_dofs, List.mem_flatMap,
    OnTaggedFace]
  constructor
  · rintro ⟨t, ⟨cell, hcell, face, hface, ht⟩, htd⟩
    have htd' : t.1 = d := by simpa using htd
    by_cases hcond : (face.at_boundary && face.boundary_indicator == tag) = true
    · rw [if_pos hcond] at ht
      simp only [VectorTools.face_dofs, List.mem_flatMap, List.mem_filterMap,
        List.mem_range] at ht
      obtain ⟨np, hnp, c, hc, hsome⟩ := ht
      by_cases hm : mask.getD c false = true
      · rw [if_pos hm] at hsome
        have hte : ({ node := np.1, comp := c } : DoF) = t.1 := by
          have := Option.some.inj hsome
          rw [← this]
        have hnode : d.node = np.1 := by rw [← htd', ← hte]
        have hcomp : d.comp = c := by rw [← htd', ← hte]
        simp only [Bool.and_eq_true, beq_iff_eq] at hcond
        refine ⟨⟨cell, hcell, face, hface, hcond.1, hcond.2, np.2, ?_⟩, ?_, ?_⟩
        · rw [hnode]; exact hnp
        · rw [hcomp]; exact hc
        · rw [hcomp]; exact hm
      · rw [if_neg hm] at hsome
        exact absurd hsome (by simp)
    · rw [if_neg hcond] at ht
      exact absurd ht (by simp)
  · rintro ⟨⟨cell, hcell, face, hface, hbd, htag, p, hp⟩, hc, hm⟩
    refine ⟨(d, p), ⟨cell, hcell, face, hface, ?_⟩, by simp⟩
    have hcond : (face.at_boundary && face.boundary_indicator == tag) = true := by
      simp [hbd, htag]
    rw [if_pos hcond]
    simp only [VectorTools.face_dofs, List.mem_flatMap, List.mem_filterMap, List.mem_range]
    exact ⟨(d.node, p), hp, d.comp, hc, by rw [if_pos hm]⟩

theorem hanging_line_none (dh : DoFHandler) (cm : ConstraintMatrix) (d : DoF)
    (hcm : cm.line d = none) (hd : ∀ l ∈ dh.hanging_node_lines, l.index ≠ d) :
    (DoFTools.make_hanging_node_constraints dh cm).line d = none := by
  unfold DoFTools.make_hanging_node_constraints
  generalize dh.hanging_node_lines = hs at hd
  induction hs generalizing cm with
  | nil => simpa using hcm
  | cons l ls ih =>
    rw [List.foldl_cons]
    apply ih
    · split
      · simp only [ConstraintMatrix.line] at hcm ⊢
        rw [List.find?_append, hcm]
        have : l.index ≠ d := hd l (List.mem_cons_self _ _)
        simp [this]
      · exact hcm
    · intro l' hl'
      exact hd l' (List.mem_cons_of_mem _ hl')

theorem hanging_local_lines (dh : DoFHandler) (cm : ConstraintMatrix) :
    (DoFTools.make_hanging_node_constraints dh cm).local_lines = cm.local_lines := by
  unfold DoFTools.make_hanging_node_constraints
  generalize dh.hanging_node_lines = hs
  induction hs generalizing cm with
  | nil => rfl
  | cons l ls ih =>
    rw [List.foldl_cons, ih]
    split <;> rfl

/-! ### The constraint object built by `applyDirichletBCs` -/

theorem applyDirichletBCs_lines (assertions : Bool) (totalNumIncrements : Nat)
    (self : continuumPlasticity) :
    ∃ c : ConstraintMatrix,
      continuumPlasticity.applyDirichletBCs assertions totalNumIncrements self
        = .ok { self with constraints := c }
      ∧ c.sorted = true
      ∧ c.local_lines = self.locally_relevant_dofs
      ∧ ∀ d : DoF, c.line d =
          (((((DoFTools.make_hanging_node_constraints self.dofHandler
                { lines := [], local_lines := self.locally_relevant_dofs, sorted := false }).line d).or
            (if self.locally_relevant_dofs.admits d = true then
              contributed self.dofHandler 2 [true, false, false]
                (loadedValue totalNumIncrements self.currentIteration) d else none)).or
            (if self.locally_relevant_dofs.admits d = true then
              contributed self.dofHandler 1 [true, false, false] [0, 0, 0] d else none)).or
            (if self.locally_relevant_dofs.admits d = true then
              contributed self.dofHandler 3 [false, true, false] [0, 0, 0] d else none)).or
            (if self.locally_relevant_dofs.admits d = true then
              contributed self.dofHandler 4 [false, false, true] [0, 0, 0] d else none) := by
  have hc0 : (DoFTools.make_hanging_node_constraints self.dofHandler
      { lines := [], local_lines := self.locally_relevant_dofs, sorted := false }).local_lines
        = self.locally_relevant_dofs := hanging_local_lines _ _
  generalize hH : DoFTools.make_hanging_node_constraints self.dofHandler
      { lines := [], local_lines := self.locally_relevant_dofs, sorted := false } = c0 at hc0
  have hstep2 : ∃ c2,
      (if self.currentIteration = 0 then
        VectorTools.interpolate_boundary_values self.dofHandler 2
          (BCFunction assertions totalNumIncrements) c0 [true, false, false]
      else
        VectorTools.interpolate_boundary_values self.dofHandler 2
          (ZeroFunction assertions dim) c0 [true, false, false]) = .ok c2
      ∧ c2.local_lines = c0.local_lines ∧ c2.sorted = c0.sorted
      ∧ ∀ d, c2.line d = (c0.line d).or (if c0.can_store_line d = true then
          contributed self.dofHandler 2 [true, false, false]
            (loadedValue totalNumIncrements self.currentIteration) d else none) := by
    by_cases hit : self.currentIteration = 0
    · simp only [hit, if_true, loadedValue]
      exact interpolate_const _ _ _ _ (evaluate_BCFunction assertions totalNumIncrements) _ _
    · simp only [hit, if_false, loadedValue]
      exact interpolate_const _ _ _ _ (evaluate_ZeroFunction assertions) _ _
  obtain ⟨c2, h2, hl2, _, hline2⟩ := hstep2
  obtain ⟨c1, h1, hl1, _, hline1⟩ :=
    interpolate_const self.dofHandler 1 (ZeroFunction assertions dim) [0, 0, 0]
      (evaluate_ZeroFunction assertions) c2
      [true, false, false]
  obtain ⟨c3, h3, hl3, _, hline3⟩ :=
    interpolate_const self.dofHandler 3 (ZeroFunction assertions dim) [0, 0, 0]
      (evaluate_ZeroFunction assertions) c1
      [false, true, false]
  obtain ⟨c4, h4, hl4, _, hline4⟩ :=
    interpolate_const self.dofHandler 4 (ZeroFunction assertions dim) [0, 0, 0]
      (evaluate_ZeroFunction assertions) c3
      [false, false, true]
  have hadm : ∀ (c : ConstraintMatrix), c.local_lines = self.locally_relevant_dofs →
      ∀ d, c.can_store_line d = self.locally_relevant_dofs.admits d := by
    intro c hc d
    simp [ConstraintMatrix.can_store_line, hc]
  have hl2' : c2.local_lines = self.locally_relevant_dofs := hl2.trans hc0
  have hl1' : c1.local_lines = self.locally_relevant_dofs := hl1.trans hl2'
  have hl3' : c3.local_lines = self.locally_relevant_dofs := hl3.trans hl1'
  have hl4' : c4.local_lines = self.locally_relevant_dofs := hl4.trans hl3'
  refine ⟨c4.close, ?_, rfl, hl4', ?_⟩
  · have hunf : continuumPlasticity.applyDirichletBCs assertions totalNumIncrements self =
        (match (if self.currentIteration = 0 then
            VectorTools.interpolate_boundary_values self.dofHandler 2
              (BCFunction assertions totalNumIncrements) c0 [true, false, false]
          else
            VectorTools.interpolate_boundary_values self.dofHandler 2
              (ZeroFunction assertions dim) c0 [true, false, false]) with
        | .error e => .error e
        | .ok constraints =>
          match VectorTools.interpolate_boundary_values self.dofHandler 1
              (ZeroFunction assertions dim) constraints [true, false, false] with
          | .error e => .error e
          | .ok constraints =>
            match VectorTools.interpolate_boundary_values self.dofHandler 3
                (ZeroFunction assertions dim) constraints [false, true, false] with
            | .error e => .error e
            | .ok constraints =>
              match VectorTools.interpolate_boundary_values self.dofHandler 4
                  (ZeroFunction assertions dim) constraints [false, false, true] with
              | .error e => .error e
              | .ok constraints => .ok { self with constraints := constraints.close }) := by
      rw [← hH]; rfl
    rw [hunf, h2]
    simp only [h1, h3, h4]
  · intro d
    have e4 : c4.close.line d = c4.line d := rfl
    rw [e4, hline4, hline3, hline1, hline2, hadm c3 hl3', hadm c1 hl1', hadm c2 hl2',
      hadm c0 hc0]

theorem mask_x (c : Nat) : ([true, false, false] : List Bool).getD c false = true ↔ c = 0 := by
  rcases c with _ | _ | _ | c <;> simp

theorem mask_y (c : Nat) : ([false, true, false] : List Bool).getD c false = true ↔ c = 1 := by
  rcases c with _ | _ | _ | c <;> simp

theorem mask_z (c : Nat) : ([false, false, true] : List Bool).getD c false = true ↔ c = 2 := by
  rcases c with _ | _ | _ | c <;> simp

theorem zero_value (c : Nat) : ([0, 0, 0] : Vector).getD c 0 = 0 := by
  rcases c with _ | _ | _ | c <;> simp

theorem selected_x (dh : DoFHandler) (tag : Nat) (d : DoF) :
    selected dh tag [true, false, false] d = true ↔ OnTaggedFace dh tag d.node ∧ d.comp = 0 := by
  rw [selected_iff, mask_x]
  constructor
  · rintro ⟨h, _, hc⟩; exact ⟨h, hc⟩
  · rintro ⟨h, hc⟩; exact ⟨h, by rw [hc]; decide, hc⟩

theorem selected_y (dh : DoFHandler) (tag : Nat) (d : DoF) :
    selected dh tag [false, true, false] d = true ↔ OnTaggedFace dh tag d.node ∧ d.comp = 1 := by
  rw [selected_iff, mask_y]
  constructor
  · rintro ⟨h, _, hc⟩; exact ⟨h, hc⟩
  · rintro ⟨h, hc⟩; exact ⟨h, by rw [hc]; decide, hc⟩

theorem selected_z (dh : DoFHandler) (tag : Nat) (d : DoF) :
    selected dh tag [false, false, true] d = true ↔ OnTaggedFace dh tag d.node ∧ d.comp = 2 := by
  rw [selected_iff, mask_z]
  constructor
  · rintro ⟨h, _, hc⟩; exact ⟨h, hc⟩
  · rintro ⟨h, hc⟩; exact ⟨h, by rw [hc]; decide, hc⟩

theorem applyDirichletBCs_free_line (assertions : Bool) (totalNumIncrements : Nat)
    (self : continuumPlasticity)
    (d : DoF) (hfree : ∀ l ∈ self.dofHandler.hanging_node_lines, l.index ≠ d) :
    ∃ c : ConstraintMatrix,
      continuumPlasticity.applyDirichletBCs assertions totalNumIncrements self
        = .ok { self with constraints := c }
      ∧ c.line d =
          if self.locally_relevant_dofs.admits d = true then
            (((contributed self.dofHandler 2 [true, false, false]
                (loadedValue totalNumIncrements self.currentIteration) d).or
              (contributed self.dofHandler 1 [true, false, false] [0, 0, 0] d)).or
              (contributed self.dofHandler 3 [false, true, false] [0, 0, 0] d)).or
              (contributed self.dofHandler 4 [false, false, true] [0, 0, 0] d)
          else none := by
  obtain ⟨c, hc, _, _, hline⟩ := applyDirichletBCs_lines assertions totalNumIncrements self
  refine ⟨c, hc, ?_⟩
  rw [hline d, hanging_line_none self.dofHandler
    { lines := [], local_lines := self.locally_relevant_dofs, sorted := false } d rfl hfree]
  by_cases hadm : self.locally_relevant_dofs.admits d = true
  · simp [hadm]
  · simp [hadm]

/-- C1: for every positive `totalNumIncrements`, in either build, `applyDirichletBCs`
succeeds and the
value it prescribes on the x-component (component 0) of a node of a loaded face
(indicator 2) is `0.5/totalNumIncrements` when `currentIteration` is 0 and 0 for every
other `currentIteration`; with `totalNumIncrements = 10` this is 0.05 at iteration 0 and 0
at iteration 1.  The degree of freedom is one the constraint object may store and that
is not a hanging node. -/
theorem C1_loaded_face_prescribed_value (assertions : Bool) (totalNumIncrements : Nat)
    (_hN : 0 < totalNumIncrements) (self : continuumPlasticity) (node : Nat)
    (hface : OnTaggedFace self.dofHandler 2 node)
    (hfree : ∀ l ∈ self.dofHandler.hanging_node_lines, l.index ≠ { node := node, comp := 0 })
    (hrel : self.locally_relevant_dofs.admits { node := node, comp := 0 } = true) :
    ∃ c : ConstraintMatrix,
      continuumPlasticity.applyDirichletBCs assertions totalNumIncrements self
        = .ok { self with constraints := c }
      ∧ (self.currentIteration = 0 →
          c.line { node := node, comp := 0 }
            = some { index := { node := node, comp := 0 }, entries := [],
                     inhomogeneity := 0.5 / (totalNumIncrements : ℚ) })
      ∧ (self.currentIteration ≠ 0 →
          c.line { node := node, comp := 0 }
            = some { index := { node := node, comp := 0 }, entries := [],
                     inhomogeneity := 0 })
      ∧ (totalNumIncrements = 10 → self.currentIteration = 0 →
          c.line { node := node, comp := 0 }
            = some { index := { node := node, comp := 0 }, entries := [],
                     inhomogeneity := 0.05 })
      ∧ (totalNumIncrements = 10 → self.currentIteration = 1 →
          c.line { node := node, comp := 0 }
            = some { index := { node := node, comp := 0 }, entries := [],
                     inhomogeneity := 0 }) := by
  obtain ⟨c, hc, hline⟩ := applyDirichletBCs_free_line assertions totalNumIncrements self _ hfree
  have hsel : selected self.dofHandler 2 [true, false, false] { node := node, comp := 0 } = true :=
    (selected_x _ _ _).2 ⟨hface, rfl⟩
  have h0 : self.currentIteration = 0 →
      c.line { node := node, comp := 0 }
        = some { index := { node := node, comp := 0 }, entries := [],
                 inhomogeneity := 0.5 / (totalNumIncrements : ℚ) } := by
    intro hit
    rw [hline]
    simp [hrel, contributed, hsel, loadedValue, hit]
  have h1 : self.currentIteration ≠ 0 →
      c.line { node := node, comp := 0 }
        = some { index := { node := node, comp := 0 }, entries := [],
                 inhomogeneity := 0 } := by
    intro hit
    rw [hline]
    simp [hrel, contributed, hsel, loadedValue, hit]
  refine ⟨c, hc, h0, h1, ?_, ?_⟩
  · intro hN hit
    rw [h0 hit, hN]
    norm_num
  · intro _ hit
    exact h1 (by omega)

/-- C7: `applyDirichletBCs` succeeds for every iteration index, in either build, and for
a degree of
freedom `d` that is not a hanging node: a Dirichlet line for `d` exists only if `d` is
the x-component of a node on a face tagged 1 or 2, the y-component of a node on a face
tagged 3, or the z-component of a node on a face tagged 4, and (when the constraint
object may store `d`) does exist in each of these cases; the line has no entries and
its value is zero whenever it does not come from tag 2, whatever the iteration index; a
node lying on no face tagged 1 to 4 (only on faces with the default indicator 0)
receives no Dirichlet constraint. -/
theorem C7_tag_component_masks (assertions : Bool) (totalNumIncrements : Nat)
    (self : continuumPlasticity)
    (d : DoF) (hfree : ∀ l ∈ self.dofHandler.hanging_node_lines, l.index ≠ d) :
    ∃ c : ConstraintMatrix,
      continuumPlasticity.applyDirichletBCs assertions totalNumIncrements self
        = .ok { self with constraints := c }
      ∧ (c.line d ≠ none →
          (d.comp = 0 ∧ (OnTaggedFace self.dofHandler 1 d.node
              ∨ OnTaggedFace self.dofHandler 2 d.node))
          ∨ (d.comp = 1 ∧ OnTaggedFace self.dofHandler 3 d.node)
          ∨ (d.comp = 2 ∧ OnTaggedFace self.dofHandler 4 d.node))
      ∧ (self.locally_relevant_dofs.admits d = true →
          ((d.comp = 0 ∧ (OnTaggedFace self.dofHandler 1 d.node
              ∨ OnTaggedFace self.dofHandler 2 d.node))
            ∨ (d.comp = 1 ∧ OnTaggedFace self.dofHandler 3 d.node)
            ∨ (d.comp = 2 ∧ OnTaggedFace self.dofHandler 4 d.node)) →
          ∃ v, c.line d = some { index := d, entries := [], inhomogeneity := v })
      ∧ (∀ l, c.line d = some l →
          (d.comp ≠ 0 ∨ ¬ OnTaggedFace self.dofHandler 2 d.node) →
          l = { index := d, entries := [], inhomogeneity := 0 })
      ∧ ((∀ tag, 1 ≤ tag → tag ≤ 4 → ¬ OnTaggedFace self.dofHandler tag d.node) →
          c.line d = none) := by
  obtain ⟨c, hc, hline⟩ := applyDirichletBCs_free_line assertions totalNumIncrements self d hfree
  have e2 := selected_x self.dofHandler 2 d
  have e1 := selected_x self.dofHandler 1 d
  have e3 := selected_y self.dofHandler 3 d
  have e4 := selected_z self.dofHandler 4 d
  have only : c.line d ≠ none →
      (d.comp = 0 ∧ (OnTaggedFace self.dofHandler 1 d.node
          ∨ OnTaggedFace self.dofHandler 2 d.node))
      ∨ (d.comp = 1 ∧ OnTaggedFace self.dofHandler 3 d.node)
      ∨ (d.comp = 2 ∧ OnTaggedFace self.dofHandler 4 d.node) := by
    intro hne
    by_contra hcon
    apply hne
    rw [hline]
    have n2 : selected self.dofHandler 2 [true, false, false] d = false := by
      rw [Bool.eq_false_iff]; intro h
      exact hcon (Or.inl ⟨(e2.1 h).2, Or.inr (e2.1 h).1⟩)
    have n1 : selected self.dofHandler 1 [true, false, false] d = false := by
      rw [Bool.eq_false_iff]; intro h
      exact hcon (Or.inl ⟨(e1.1 h).2, Or.inl (e1.1 h).1⟩)
    have n3 : selected self.dofHandler 3 [false, true, false] d = false := by
      rw [Bool.eq_false_iff]; intro h
      exact hcon (Or.inr (Or.inl ⟨(e3.1 h).2, (e3.1 h).1⟩))
    have n4 : selected self.dofHandler 4 [false, false, true] d = false := by
      rw [Bool.eq_false_iff]; intro h
      exact hcon (Or.inr (Or.inr ⟨(e4.1 h).2, (e4.1 h).1⟩))
    simp [contributed, n1, n2, n3, n4]
  refine ⟨c, hc, only, ?_, ?_, ?_⟩
  · intro hadm hcase
    rw [hline]
    simp only [hadm, if_true, contributed]
    cases h2 : selected self.dofHandler 2 [true, false, false] d
    · cases h1 : selected self.dofHandler 1 [true, false, false] d
      · cases h3 : selected self.dofHandler 3 [false, true, false] d
        · cases h4 : selected self.dofHandler 4 [false, false, true] d
          · exfalso
            rcases hcase with ⟨hc0, h | h⟩ | ⟨hc1, h⟩ | ⟨hc2, h⟩
            · rw [e1.2 ⟨h, hc0⟩] at h1; exact Bool.noConfusion h1
            · rw [e2.2 ⟨h, hc0⟩] at h2; exact Bool.noConfusion h2
            · rw [e3.2 ⟨h, hc1⟩] at h3; exact Bool.noConfusion h3
            · rw [e4.2 ⟨h, hc2⟩] at h4; exact Bool.noConfusion h4
          · exact ⟨_, rfl⟩
        · exact ⟨_, rfl⟩
      · exact ⟨_, rfl⟩
    · exact ⟨_, rfl⟩
  · intro l hl hnot
    have n2 : selected self.dofHandler 2 [true, false, false] d = false := by
      rw [Bool.eq_false_iff]; intro h
      rcases hnot with h0 | h0
      · exact h0 (e2.1 h).2
      · exact h0 (e2.1 h).1
    rw [hline] at hl
    by_cases hadm : self.locally_relevant_dofs.admits d = true
    · simp only [hadm, if_true, contributed, n2, zero_value] at hl
      cases h1 : selected self.dofHandler 1 [true, false, false] d <;>
        cases h3 : selected self.dofHandler 3 [false, true, false] d <;>
        cases h4 : selected self.dofHandler 4 [false, false, true] d <;>
        simp [h1, h3, h4] at hl <;> exact hl.symm
    · simp [hadm] at hl
  · intro hno
    by_contra hne
    rcases only hne with ⟨_, h | h⟩ | ⟨_, h⟩ | ⟨_, h⟩
    · exact hno 1 (by decide) (by decide) h
    · exact hno 2 (by decide) (by decide) h
    · exact hno 3 (by decide) (by decide) h
    · exact hno 4 (by decide) (by decide) h

/-- C4: `applyDirichletBCs` rebuilds the constraint object from scratch: in either build
it succeeds, its
result does not depend on the constraint object held before the call (same mesh tags,
iteration index and `totalNumIncrements`), and running it again on its own result
returns that result unchanged (idempotence). -/
theorem C4_constraints_rebuilt_from_scratch (assertions : Bool) (totalNumIncrements : Nat)
    (self : continuumPlasticity) (prior1 prior2 : ConstraintMatrix) :
    (∃ c : ConstraintMatrix,
      continuumPlasticity.applyDirichletBCs assertions totalNumIncrements
          { self with constraints := prior1 } = .ok { self with constraints := c }
      ∧ continuumPlasticity.applyDirichletBCs assertions totalNumIncrements
          { self with constraints := prior2 } = .ok { self with constraints := c }
      ∧ continuumPlasticity.applyDirichletBCs assertions totalNumIncrements
          { self with constraints := c } = .ok { self with constraints := c }) := by
  obtain ⟨c, hc, _⟩ :=
    applyDirichletBCs_lines assertions totalNumIncrements { self with constraints := prior1 }
  have indep : ∀ q : ConstraintMatrix,
      continuumPlasticity.applyDirichletBCs assertions totalNumIncrements { self with constraints := q }
        = continuumPlasticity.applyDirichletBCs assertions totalNumIncrements
            { self with constraints := prior1 } := fun _ => rfl
  exact ⟨c, hc, (indep prior2).trans hc, (indep c).trans hc⟩

/-! ### Boundary classification -/

theorem faceAt_markBoundaries (self : continuumPlasticity) (i j : Nat) (cell : Cell)
    (face : Face) (hcell : self.dofHandler.cells[i]? = some cell)
    (hface : cell.faces[j]? = some face) :
    faceAt self.markBoundaries i j
      = some (if cell.is_locally_owned = true then continuumPlasticity.markFace face
          else face) := by
  simp only [faceAt, continuumPlasticity.markBoundaries, List.getElem?_map, hcell, Option.map_some']
  by_cases hown : cell.is_locally_owned = true
  · simp [hown, hface]
  · simp [hown, hface]

/-- C2: in `markBoundaries`, for every boundary face of a locally owned cell of the box
mesh (its centre lies on the bounding plane of one axis and strictly inside the box
along the other two; it carries the default indicator 0 before the call): the face
keeps its other data and receives the indicator 1 when its centre has x = 0, 2 when
x = 5, 3 when y = 0, 4 when z = 0, and keeps the default indicator 0 when its centre lies
on none of these four planes. -/
theorem C2_markBoundaries_tags (self : continuumPlasticity) (i j : Nat) (cell : Cell)
    (face : Face) (hcell : self.dofHandler.cells[i]? = some cell)
    (hown : cell.is_locally_owned = true) (hface : cell.faces[j]? = some face)
    (hbd : face.at_boundary = true) (hdefault : face.boundary_indicator = 0)
    (hgeo : IsBoxBoundaryFaceCenter ![0, 0, 0] ![5, 1, 1] face.center) :
    ∃ tag : Nat,
      faceAt self.markBoundaries i j = some { face with boundary_indicator := tag }
      ∧ (face.center 0 = 0 → tag = 1)
      ∧ (face.center 0 = 5 → tag = 2)
      ∧ (face.center 1 = 0 → tag = 3)
      ∧ (face.center 2 = 0 → tag = 4)
      ∧ (face.center 0 ≠ 0 → face.center 0 ≠ 5 → face.center 1 ≠ 0 → face.center 2 ≠ 0 →
          tag = 0) := by
  rw [faceAt_markBoundaries self i j cell face hcell hface, if_pos hown]
  obtain ⟨a, hon, hin⟩ := hgeo
  have hx := hin 0
  have hy := hin 1
  have hz := hin 2
  simp only [Matrix.cons_val_zero, Matrix.cons_val_one, Matrix.head_cons, Matrix.cons_val_two,
    Matrix.tail_cons] at hx hy hz
  by_cases h0 : face.center 0 = 0
  · refine ⟨1, by simp [continuumPlasticity.markFace, hbd, h0], fun _ => rfl, ?_, ?_, ?_, ?_⟩
    · intro h; rw [h0] at h; norm_num at h
    · intro h
      have ha : a = 0 := by
        by_contra hne
        have := (hx (Ne.symm hne)).1
        rw [h0] at this; exact lt_irrefl _ this
      have := (hy (by rw [ha]; decide)).1
      rw [h] at this; exact absurd this (lt_irrefl _)
    · intro h
      have ha : a = 0 := by
        by_contra hne
        have := (hx (Ne.symm hne)).1
        rw [h0] at this; exact lt_irrefl _ this
      have := (hz (by rw [ha]; decide)).1
      rw [h] at this; exact absurd this (lt_irrefl _)
    · intro h; exact absurd h0 h
  · by_cases h5 : face.center 0 = 5
    · have ha : a = 0 := by
        by_contra hne
        have := (hx (Ne.symm hne)).2
        rw [h5] at this; exact lt_irrefl _ this
      refine ⟨2, by simp [continuumPlasticity.markFace, hbd, h0, h5], fun h => absurd h h0,
        fun _ => rfl, ?_, ?_, ?_⟩
      · intro h
        have := (hy (by rw [ha]; decide)).1
        rw [h] at this; exact absurd this (lt_irrefl _)
      · intro h
        have := (hz (by rw [ha]; decide)).1
        rw [h] at this; exact absurd this (lt_irrefl _)
      · intro _ h; exact absurd h5 h
    · by_cases h1 : face.center 1 = 0
      · have ha : a = 1 := by
          by_contra hne
          have := (hy (Ne.symm hne)).1
          rw [h1] at this; exact lt_irrefl _ this
        refine ⟨3, by simp [continuumPlasticity.markFace, hbd, h0, h5, h1],
          fun h => absurd h h0, fun h => absurd h h5, fun _ => rfl, ?_, ?_⟩
        · intro h
          have := (hz (by rw [ha]; decide)).1
          rw [h] at this; exact absurd this (lt_irrefl _)
        · intro _ _ h; exact absurd h1 h
      · by_cases h2 : face.center 2 = 0
        · exact ⟨4, by simp [continuumPlasticity.markFace, hbd, h0, h5, h1, h2],
            fun h => absurd h h0, fun h => absurd h h5, fun h => absurd h h1, fun _ => rfl,
            fun _ _ _ h => absurd h2 h⟩
        · refine ⟨0, ?_, fun h => absurd h h0, fun h => absurd h h5, fun h => absurd h h1,
            fun h => absurd h h2, fun _ _ _ _ => rfl⟩
          have hkeep : continuumPlasticity.markFace face = face := by
            rw [continuumPlasticity.markFace, if_pos hbd]
            simp only [h0, h5, h1, h2, if_false]
          rw [hkeep, ← hdefault]

/-! ### Face centres of the generated mesh -/

theorem coord_zero (g : GridGenerator.SubdividedHyperRectangle) (a : Fin dim) :
    GridGenerator.coord g a ((0 : Nat) : ℚ) = g.p1 a := by
  simp [GridGenerator.coord]

theorem coord_last (g : GridGenerator.SubdividedHyperRectangle) (a : Fin dim) (m : Nat)
    (hm : m + 1 = GridGenerator.reps g a) :
    GridGenerator.coord g a ((m + 1 : Nat) : ℚ) = g.p2 a := by
  have hn : ((GridGenerator.reps g a : Nat) : ℚ) ≠ 0 := by
    rw [← hm]; exact_mod_cast Nat.succ_ne_zero m
  simp only [GridGenerator.coord, hm]
  field_simp

theorem coord_mid (g : GridGenerator.SubdividedHyperRectangle) (a : Fin dim) (m : Nat)
    (hbox : g.p1 a < g.p2 a) (hm : m < GridGenerator.reps g a) :
    g.p1 a < GridGenerator.coord g a ((m : ℚ) + 1 / 2)
      ∧ GridGenerator.coord g a ((m : ℚ) + 1 / 2) < g.p2 a := by
  have hn : (0 : ℚ) < (GridGenerator.reps g a : ℚ) := by
    exact_mod_cast Nat.lt_of_le_of_lt (Nat.zero_le m) hm
  have hm' : (m : ℚ) + 1 ≤ (GridGenerator.reps g a : ℚ) := by exact_mod_cast hm
  have hL : 0 < g.p2 a - g.p1 a := sub_pos.2 hbox
  have ht : 0 < (g.p2 a - g.p1 a) / (GridGenerator.reps g a : ℚ) := div_pos hL hn
  have hsplit : g.p2 a - g.p1 a
      = (GridGenerator.reps g a : ℚ) * ((g.p2 a - g.p1 a) / (GridGenerator.reps g a : ℚ)) := by
    field_simp
  have hm0 : (0 : ℚ) ≤ (m : ℚ) := Nat.cast_nonneg m
  simp only [GridGenerator.coord]
  constructor
  · nlinarith
  · nlinarith

theorem mem_subdivided_hyper_rectangle (g : GridGenerator.SubdividedHyperRectangle)
    (cell : Cell) (hcell : cell ∈ GridGenerator.subdivided_hyper_rectangle g) :
    ∃ idx : Fin dim → Nat, (∀ a, idx a < GridGenerator.reps g a)
      ∧ cell = GridGenerator.cell g idx := by
  simp only [GridGenerator.subdivided_hyper_rectangle, List.mem_flatMap, List.mem_map,
    List.mem_range] at hcell
  obtain ⟨k, hk, j, hj, i, hi, rfl⟩ := hcell
  refine ⟨![i, j, k], ?_, rfl⟩
  intro a
  fin_cases a
  · simpa using hi
  · simpa using hj
  · simpa using hk

theorem face_boundary_center (g : GridGenerator.SubdividedHyperRectangle)
    (hbox : ∀ a, g.p1 a < g.p2 a) (idx : Fin dim → Nat)
    (hidx : ∀ a, idx a < GridGenerator.reps g a) (a : Fin dim) (s : Nat)
    (hbd : (GridGenerator.face g idx a s).at_boundary = true) :
    IsBoxBoundaryFaceCenter g.p1 g.p2 (GridGenerator.face g idx a s).center := by
  refine ⟨a, ?_, ?_⟩
  · simp only [GridGenerator.face, Bool.or_eq_true, Bool.and_eq_true, beq_iff_eq] at hbd
    simp only [GridGenerator.face, if_true]
    rcases hbd with ⟨hs, h0⟩ | ⟨hs, h1⟩
    · left
      rw [hs, h0]
      exact coord_zero g a
    · right
      rw [hs]
      exact coord_last g a (idx a) h1
  · intro b hb
    simp only [GridGenerator.face, if_neg hb]
    exact coord_mid g b (idx b) (hbox b) (hidx b)

/-- Every boundary face of the mesh that `subdivided_hyper_rectangle` generates for a
non-degenerate box belongs to a locally owned cell, carries the default indicator 0 and
has its centre on the bounding plane of one axis, strictly inside the box along the
other axes. -/
theorem subdivided_hyper_rectangle_boundary_face
    (g : GridGenerator.SubdividedHyperRectangle) (hbox : ∀ a, g.p1 a < g.p2 a)
    (cell : Cell) (hcell : cell ∈ GridGenerator.subdivided_hyper_rectangle g)
    (face : Face) (hface : face ∈ cell.faces) (hbd : face.at_boundary = true) :
    cell.is_locally_owned = true ∧ face.boundary_indicator = 0
      ∧ IsBoxBoundaryFaceCenter g.p1 g.p2 face.center := by
  obtain ⟨idx, hidx, rfl⟩ := mem_subdivided_hyper_rectangle g cell hcell
  simp only [GridGenerator.cell, List.mem_cons, List.mem_singleton, List.not_mem_nil,
    or_false] at hface
  rcases hface with rfl | rfl | rfl | rfl | rfl | rfl <;>
    exact ⟨rfl, rfl, face_boundary_center g hbox idx hidx _ _ hbd⟩

/-! ### The theorems on the coarsest mesh -/

theorem coarse_box (a : Fin dim) : coarse.p1 a < coarse.p2 a := by
  fin_cases a <;> simp [coarse]

theorem coarse_loaded_face_marked :
    continuumPlasticity.markFace (GridGenerator.face coarse ![4, 0, 0] 0 1)
      = { GridGenerator.face coarse ![4, 0, 0] 0 1 with boundary_indicator := 2 } := by
  have hc : (GridGenerator.face coarse ![4, 0, 0] 0 1).center 0 = 5 := by
    simp [GridGenerator.face, GridGenerator.coord, GridGenerator.reps, coarse]
  have hb : (GridGenerator.face coarse ![4, 0, 0] 0 1).at_boundary = true := rfl
  rw [continuumPlasticity.markFace, if_pos hb]
  simp only [hc]
  norm_num

theorem coarse_loaded_node :
    OnTaggedFace (coarseProblem 0).markBoundaries.dofHandler 2 5 := by
  refine ⟨_, List.getElem?_mem (rfl : (coarseProblem 0).markBoundaries.dofHandler.cells[4]?
      = some { GridGenerator.cell coarse ![4, 0, 0] with
          faces := (GridGenerator.cell coarse ![4, 0, 0]).faces.map continuumPlasticity.markFace }),
    continuumPlasticity.markFace (GridGenerator.face coarse ![4, 0, 0] 0 1),
    List.getElem?_mem (rfl : ((GridGenerator.cell coarse ![4, 0, 0]).faces.map
      continuumPlasticity.markFace)[1]? = some _), ?_, ?_, ?_⟩
  · rw [coarse_loaded_face_marked]; rfl
  · rw [coarse_loaded_face_marked]
  · rw [coarse_loaded_face_marked]
    exact ⟨_, List.getElem?_mem (rfl :
      (GridGenerator.face coarse ![4, 0, 0] 0 1).support_points[0]? = some (5, _))⟩

theorem C1_loaded_face_prescribed_value_witness :
    ∃ c : ConstraintMatrix,
      continuumPlasticity.applyDirichletBCs true 10 (coarseProblem 0).markBoundaries
        = .ok { (coarseProblem 0).markBoundaries with constraints := c }
      ∧ c.line { node := 5, comp := 0 }
          = some { index := { node := 5, comp := 0 }, entries := [], inhomogeneity := 0.05 } := by
  obtain ⟨c, hc, _, _, h10, _⟩ :=
    C1_loaded_face_prescribed_value true 10 (by decide) (coarseProblem 0).markBoundaries 5
      coarse_loaded_node (fun l hl => absurd hl (List.not_mem_nil l)) rfl
  exact ⟨c, hc, h10 rfl rfl⟩

theorem C7_tag_component_masks_witness :
    ∃ c : ConstraintMatrix,
      continuumPlasticity.applyDirichletBCs true 10 (coarseProblem 0).markBoundaries
        = .ok { (coarseProblem 0).markBoundaries with constraints := c }
      ∧ ∃ v, c.line { node := 5, comp := 0 }
          = some { index := { node := 5, comp := 0 }, entries := [], inhomogeneity := v } := by
  obtain ⟨c, hc, _, hfix, _, _⟩ :=
    C7_tag_component_masks true 10 (coarseProblem 0).markBoundaries { node := 5, comp := 0 }
      (fun l hl => absurd hl (List.not_mem_nil l))
  exact ⟨c, hc, hfix rfl (Or.inl ⟨rfl, Or.inr coarse_loaded_node⟩)⟩

theorem C2_markBoundaries_tags_witness :
    faceAt (coarseProblem 0).markBoundaries 4 1
      = some { GridGenerator.face coarse ![4, 0, 0] 0 1 with boundary_indicator := 2 } := by
  obtain ⟨tag, h, _, h5, _⟩ :=
    C2_markBoundaries_tags (coarseProblem 0) 4 1 (GridGenerator.cell coarse ![4, 0, 0])
      (GridGenerator.face coarse ![4, 0, 0] 0 1) rfl rfl rfl rfl rfl
      (subdivided_hyper_rectangle_boundary_face coarse coarse_box
        (GridGenerator.cell coarse ![4, 0, 0]) (List.getElem?_mem (n := 4) rfl)
        (GridGenerator.face coarse ![4, 0, 0] 0 1) (List.getElem?_mem (n := 1) rfl) rfl).2.2
  have hc : (GridGenerator.face coarse ![4, 0, 0] 0 1).center 0 = 5 := by
    simp [GridGenerator.face, GridGenerator.coord, GridGenerator.reps, coarse]
  rw [h, h5 hc]

end Plasticity
